import Mathlib

/-!
Verification of the inventory and ordering core of the op-inventory
application (src/database.py and the search logic of src/app.py).

The SQLite store is shallowly embedded as a `DB` value holding the two
tables as lists in rowid (insertion) order.  SQLite `AUTOINCREMENT`
primary keys are modelled by the `next_product_id` / `next_order_id`
counters (starting at 1, as SQLite does).  `created_at` timestamps are
modelled as naturals ordered chronologically, matching SQLite's
lexicographic ordering of its `CURRENT_TIMESTAMP` strings.  Each
repository function of database.py becomes a pure function on `DB`.
-/

/-- Row of the products table (src/database.py, init_db).  `manufacturer`,
`barcode` and `expiry` are nullable columns, hence `Option`. -/
structure Product where
  id : Nat
  name : String
  manufacturer : Option String
  barcode : Option String
  stock : Int
  expiry : Option String
  min_stock : Int
deriving DecidableEq, Repr

/-- Row of the orders table (src/database.py, init_db).  `product_id` is a
bare integer column: the declared FOREIGN KEY is not enforced because the
code never issues PRAGMA foreign_keys=ON (SQLite's default is off). -/
structure Order where
  id : Nat
  product_id : Nat
  quantity : Int
  status : String
  created_at : Nat
deriving DecidableEq, Repr

/-- The persistent store: both tables in rowid order plus the
autoincrement counters. -/
structure DB where
  products : List Product
  orders : List Order
  next_product_id : Nat
  next_order_id : Nat
deriving DecidableEq, Repr

/-- A store whose tables were just created and never written: what
init_db's CREATE TABLE statements produce on a fresh file. -/
def empty_db : DB := ⟨[], [], 1, 1⟩

/-- seed_data (src/database.py lines 42-52): the five sample rows inserted
when the products table is empty.  The first four expiry strings are
computed in the source from the current date (now+365, +100, +200 and +50
days, strftime %Y-%m-%d); they enter the model as the parameters
e1..e4.  The fifth expiry is the literal "2024-12-31".  Ids are assigned
by AUTOINCREMENT from `start_id`. -/
def seed_products (start_id : Nat) (e1 e2 e3 e4 : String) : List Product :=
  [ ⟨start_id, "No.11 メス刃", some "フェザー", some "4902470036647", 100, some e1, 20⟩,
    ⟨start_id + 1, "3-0 ナイロン糸", some "エチコン", some "103001", 3, some e2, 10⟩,
    ⟨start_id + 2, "4-0 バイクリル", some "エチコン", some "104002", 50, some e3, 10⟩,
    ⟨start_id + 3, "ステープラー 35W", some "3M", some "888888", 2, some e4, 5⟩,
    ⟨start_id + 4, "吸収性止血材", some "ジョンソン", some "999999", 0, some "2024-12-31", 5⟩ ]

/-- init_db (src/database.py lines 8-40): CREATE TABLE IF NOT EXISTS for
both tables (a missing store, `none`, becomes `empty_db`; an existing
store is left as is), then seed_data exactly when the products table is
empty.  e1..e4 are the date-dependent expiry strings of seed_data. -/
def init_db (s : Option DB) (e1 e2 e3 e4 : String) : DB :=
  let db := s.getD empty_db
  if db.products.isEmpty then
    { db with
      products := seed_products db.next_product_id e1 e2 e3 e4,
      next_product_id := db.next_product_id + 5 }
  else db

/-- get_inventory (src/database.py lines 54-59): SELECT * FROM products,
rows in rowid (insertion) order. -/
def get_inventory (db : DB) : List Product := db.products

/-- get_product (src/database.py lines 61-67): first row with the given
id, if any. -/
def get_product (db : DB) (product_id : Nat) : Option Product :=
  db.products.find? (fun p => p.id == product_id)

/-- get_product_by_barcode (src/database.py lines 69-80): first row whose
barcode column equals the argument.  A NULL barcode never compares equal
to any string in SQL, hence the comparison against `some barcode`. -/
def get_product_by_barcode (db : DB) (barcode : String) : Option Product :=
  db.products.find? (fun p => p.barcode == some barcode)

/-- update_stock (src/database.py lines 82-88): UPDATE products SET
stock = stock + change WHERE id = product_id.  Rows with other ids are
untouched; if no row matches, nothing changes. -/
def update_stock (db : DB) (product_id : Nat) (change : Int) : DB :=
  { db with
    products := db.products.map (fun p =>
      if p.id == product_id then { p with stock := p.stock + change } else p) }

/-- add_to_order_list (src/database.py lines 90-96): INSERT INTO orders
(product_id, quantity); status and created_at come from the column
defaults 'pending' and CURRENT_TIMESTAMP (the latter modelled by the
`now` parameter). -/
def add_to_order_list (db : DB) (product_id : Nat) (quantity : Int) (now : Nat) : DB :=
  { db with
    orders := db.orders ++ [⟨db.next_order_id, product_id, quantity, "pending", now⟩],
    next_order_id := db.next_order_id + 1 }

/-- Row shape returned by get_orders: o.id, p.name, p.manufacturer,
o.quantity, o.status, o.created_at. -/
structure OrderView where
  id : Nat
  name : String
  manufacturer : Option String
  quantity : Int
  status : String
  created_at : Nat
deriving DecidableEq, Repr

/-- The SELECT list of get_orders applied to a joined pair of rows. -/
def order_view (o : Order) (p : Product) : OrderView :=
  ⟨o.id, p.name, p.manufacturer, o.quantity, o.status, o.created_at⟩

/-- The FROM/JOIN/WHERE part of get_orders: pending orders, each inner
joined with the product row matching its product_id (products.id is the
primary key, so at most one row matches; orders with no matching product
are dropped by the inner join).  Rows in orders-table scan order. -/
def pending_views (db : DB) : List OrderView :=
  (db.orders.filter (fun o => o.status == "pending")).filterMap (fun o =>
    (db.products.find? (fun p => p.id == o.product_id)).map (order_view o))

/-- Insert an OrderView into a list sorted by created_at descending,
keeping it sorted. -/
def insert_desc (v : OrderView) : List OrderView → List OrderView
  | [] => [v]
  | w :: ws => if w.created_at < v.created_at then v :: w :: ws else w :: insert_desc v ws

/-- Sort a list of OrderViews by created_at descending (ORDER BY
o.created_at DESC of get_orders). -/
def sort_desc : List OrderView → List OrderView
  | [] => []
  | v :: vs => insert_desc v (sort_desc vs)

/-- get_orders (src/database.py lines 98-110): pending orders joined with
their products, ordered by created_at descending. -/
def get_orders (db : DB) : List OrderView :=
  sort_desc (pending_views db)

/-- clear_orders (src/database.py lines 112-118): UPDATE orders SET
status = 'ordered' WHERE status = 'pending'.  No row is inserted or
deleted and no other column changes. -/
def clear_orders (db : DB) : DB :=
  { db with
    orders := db.orders.map (fun o =>
      if o.status == "pending" then { o with status := "ordered" } else o) }

/-- Generic left-to-right scan: does the pattern match, element-wise via
`m`, starting at the head of the text? -/
def match_at (m : Char → Char → Bool) : List Char → List Char → Bool
  | [], _ => true
  | _ :: _, [] => false
  | pc :: ps, c :: cs => m pc c && match_at m ps cs

/-- Generic left-to-right scan: does the pattern match, element-wise via
`m`, starting at some position of the text?  (Python re.search tries
every start position.) -/
def scan_match (m : Char → Char → Bool) : List Char → List Char → Bool
  | pat, [] => match_at m pat []
  | pat, c :: cs => match_at m pat (c :: cs) || scan_match m pat cs

/-- One pattern character against one text character for pandas
str.contains(query, case=False): the pattern is a regular expression
(regex=True is the pandas default), so '.' matches any character, and
case=False folds case; this models the regex fragment in which '.' is the
only metacharacter and every other pattern character is a literal, with
case folding modelled by Char.toLower. -/
def char_match (pc c : Char) : Bool :=
  pc == '.' || pc.toLower == c.toLower

/-- The name filter of the manual search (src/app.py line 130):
all_products[name].str.contains(search_query, case=False, na=False).
name is NOT NULL so na never applies.  This embedding is faithful only
for queries inside the literal-plus-dot fragment singled out by
dot_literal_pattern below: on queries holding other Python re
metacharacters (alternation, anchors, quantifiers, groups, classes,
escapes) the program performs full regex search, and on syntactically
invalid patterns it raises re.error, neither of which is modelled here;
theorems about search_product therefore carry dot_literal_pattern as a
hypothesis. -/
def regex_contains_ci (name query : String) : Bool :=
  scan_match char_match query.data name.data

/-- Queries within the modelled regex fragment: every character is
either the '.' wildcard or a plain literal, and none of Python re's
other metacharacters occurs, so the query is a syntactically valid
regular expression (no re.error path) whose re.search is exactly the
scan performed by regex_contains_ci. -/
def dot_literal_pattern (q : String) : Bool :=
  q.data.all (fun c =>
    !(['|', '^', '$', '*', '+', '?', '(', ')', '[', ']',
       '\x7b', '\x7d', '\\'].contains c))

/-- Case-insensitive SUBSTRING containment, written from the spec's words
("products whose name contains query as a case-insensitive substring")
for comparison with the source's regex_contains_ci. -/
def substr_ci (name query : String) : Bool :=
  scan_match (fun a b => a.toLower == b.toLower) query.data name.data

/-- The target-product resolution of the manual search (src/app.py lines
121-133): exact barcode lookup first; otherwise the first row (iloc[0],
i.e. first in inventory order) of the name-filtered inventory; none if
both stages miss. -/
def search_product (db : DB) (query : String) : Option Product :=
  match get_product_by_barcode db query with
  | some p => some p
  | none => (db.products.filter (fun p => regex_contains_ci p.name query)).head?

/-- Error raised by the storage engine when a constraint is violated. -/
inductive DBError where
  | constraintViolation
deriving DecidableEq, Repr

/-- Modelled from the spec: src/ declares the products schema (barcode
TEXT UNIQUE in init_db) but contains no product-insert routine beyond
seeding, so the insert path is modelled here: an INSERT INTO products
under SQLite's UNIQUE semantics fails with a constraint violation when a
non-null barcode duplicates an existing non-null barcode, while NULL
barcodes never conflict; on failure the statement is aborted and the
table is unchanged (the `Except.error` result carries no new state). -/
def insert_product (db : DB) (name : String) (manufacturer barcode expiry : Option String)
    (stock min_stock : Int) : Except DBError DB :=
  let dup := match barcode with
    | some b => db.products.any (fun p => p.barcode == some b)
    | none => false
  if dup then .error .constraintViolation
  else .ok { db with
    products := db.products ++
      [⟨db.next_product_id, name, manufacturer, barcode, stock, expiry, min_stock⟩],
    next_product_id := db.next_product_id + 1 }

/-- A concrete seeded store, used for witnesses and counterexamples: the
result of init_db on a fresh file with concrete expiry dates. -/
def sample_db : DB :=
  init_db none "2026-10-12" "2026-01-20" "2026-04-30" "2025-12-01"

/-- Uniqueness of non-null barcodes among the stored products: what the
UNIQUE constraint of the products schema guarantees (NULL barcodes are
exempt, as in SQLite). -/
def barcode_unique (ps : List Product) : Prop :=
  ps.Pairwise (fun p q => p.barcode = none ∨ p.barcode ≠ q.barcode)

instance (ps : List Product) : Decidable (barcode_unique ps) := by
  unfold barcode_unique
  infer_instance

/-! Helper lemmas. -/

/-- Mapping a function that fixes every element of a list is the
identity. -/
theorem map_self_of_mem {α : Type} {f : α → α} :
    ∀ {l : List α}, (∀ a ∈ l, f a = a) → l.map f = l := by
  intro l
  induction l with
  | nil => intro _; rfl
  | cons x xs ih =>
    intro h
    simp only [List.map_cons]
    rw [h x (List.mem_cons_self x xs), ih (fun a ha => h a (List.mem_cons_of_mem x ha))]

/-- The head of a filtered list is the first element satisfying the
predicate. -/
theorem head?_filter_eq_find? {α : Type} (p : α → Bool) :
    ∀ (l : List α), (l.filter p).head? = l.find? p := by
  intro l
  induction l with
  | nil => rfl
  | cons x xs ih =>
    by_cases h : p x
    · simp [List.filter_cons, h, List.find?_cons_of_pos]
    · simp only [Bool.not_eq_true] at h
      simp [List.filter_cons, h, List.find?_cons_of_neg, ih]

/-- Under barcode uniqueness, a stored product with a given barcode is
the product that a first-match scan for that barcode finds. -/
theorem find?_eq_of_barcode_unique :
    ∀ (l : List Product), barcode_unique l →
      ∀ P ∈ l, ∀ b, P.barcode = some b →
        l.find? (fun p => p.barcode == some b) = some P := by
  intro l
  induction l with
  | nil => intro _ P hP; cases hP
  | cons x xs ih =>
    intro hu P hP b hPb
    rw [barcode_unique, List.pairwise_cons] at hu
    obtain ⟨hx, hxs⟩ := hu
    rcases List.mem_cons.mp hP with rfl | hP'
    · rw [List.find?_cons_of_pos]
      simp [hPb]
    · have hxb : x.barcode ≠ some b := by
        intro heq
        rcases hx P hP' with hnone | hne
        · rw [hnone] at heq
          cases heq
        · exact hne (heq.trans hPb.symm)
      rw [List.find?_cons_of_neg]
      · exact ih hxs P hP' b hPb
      · simp [hxb]

/-- Membership in insert_desc. -/
theorem mem_insert_desc {v a : OrderView} :
    ∀ {l : List OrderView}, a ∈ insert_desc v l ↔ a = v ∨ a ∈ l := by
  intro l
  induction l with
  | nil => simp [insert_desc]
  | cons w ws ih =>
    by_cases h : w.created_at < v.created_at
    · simp [insert_desc, h]
    · simp only [insert_desc, if_neg h, List.mem_cons, ih]
      tauto

/-- insert_desc is a permutation of consing. -/
theorem perm_insert_desc (v : OrderView) :
    ∀ (l : List OrderView), (insert_desc v l).Perm (v :: l) := by
  intro l
  induction l with
  | nil => rfl
  | cons w ws ih =>
    by_cases h : w.created_at < v.created_at
    · simp [insert_desc, h]
    · rw [insert_desc, if_neg h]
      exact (ih.cons w).trans (List.Perm.swap v w ws)

/-- sort_desc permutes its input. -/
theorem perm_sort_desc : ∀ (l : List OrderView), (sort_desc l).Perm l := by
  intro l
  induction l with
  | nil => rfl
  | cons v vs ih =>
    exact (perm_insert_desc v (sort_desc vs)).trans (ih.cons v)

/-- insert_desc preserves descending sortedness by created_at. -/
theorem pairwise_insert_desc (v : OrderView) :
    ∀ {l : List OrderView},
      l.Pairwise (fun a b => b.created_at ≤ a.created_at) →
      (insert_desc v l).Pairwise (fun a b => b.created_at ≤ a.created_at) := by
  intro l
  induction l with
  | nil => intro _; simp [insert_desc]
  | cons w ws ih =>
    intro h
    rw [List.pairwise_cons] at h
    obtain ⟨hw, hws⟩ := h
    by_cases hlt : w.created_at < v.created_at
    · rw [insert_desc, if_pos hlt, List.pairwise_cons]
      refine ⟨?_, List.pairwise_cons.mpr ⟨hw, hws⟩⟩
      intro a ha
      rcases List.mem_cons.mp ha with rfl | ha'
      · exact Nat.le_of_lt hlt
      · exact Nat.le_trans (hw a ha') (Nat.le_of_lt hlt)
    · rw [insert_desc, if_neg hlt, List.pairwise_cons]
      refine ⟨?_, ih hws⟩
      intro a ha
      rcases mem_insert_desc.mp ha with rfl | ha'
      · exact Nat.le_of_not_lt hlt
      · exact hw a ha'

/-- sort_desc sorts by created_at descending. -/
theorem pairwise_sort_desc :
    ∀ (l : List OrderView),
      (sort_desc l).Pairwise (fun a b => b.created_at ≤ a.created_at) := by
  intro l
  induction l with
  | nil => simp [sort_desc]
  | cons v vs ih => exact pairwise_insert_desc v ih

/-! Claim theorems. -/

/-- C5: for every product id and every integer delta d, update_stock with
+d followed by update_stock with -d restores the store exactly (in
particular the product's original stock value): the update is the delta
update stock = stock + delta, so opposite deltas round-trip. -/
theorem C5_update_stock_round_trip (db : DB) (product_id : Nat) (d : Int) :
    update_stock (update_stock db product_id d) product_id (-d) = db := by
  cases db with
  | mk ps os np no =>
    simp only [update_stock, List.map_map]
    congr 1
    apply map_self_of_mem
    intro p _
    cases p with
    | mk pid pname pman pbar pstock pexp pmin =>
      by_cases hid : pid == product_id
      · simp [Function.comp, hid]
      · simp [Function.comp, hid]

/-- C6: update_stock on an id matching no stored product is a silent
no-op: it raises nothing (the function is total), creates no row and
leaves the store exactly unchanged. -/
theorem C6_update_stock_missing_id (db : DB) (product_id : Nat) (d : Int)
    (h : ∀ p ∈ db.products, p.id ≠ product_id) :
    update_stock db product_id d = db := by
  show ({ db with products := _ } : DB) = db
  have hmap : db.products.map (fun p =>
      if p.id == product_id then { p with stock := p.stock + d } else p) = db.products := by
    apply map_self_of_mem
    intro p hp
    rw [if_neg]
    simp only [beq_iff_eq]
    exact h p hp
  rw [hmap]

/-- C6 witness: updating stock for the absent id 999 on the seeded store
changes nothing. -/
theorem C6_update_stock_missing_id_witness :
    update_stock sample_db 999 1 = sample_db :=
  C6_update_stock_missing_id sample_db 999 1 (by decide)

/-- C2: under the barcode-uniqueness invariant, get_product_by_barcode
returns exactly the stored product carrying the queried barcode; it
returns none when no stored product has that barcode (NULL barcodes never
match); and it never returns a product whose barcode differs from the
query. -/
theorem C2_get_product_by_barcode_exact (db : DB) (h : barcode_unique db.products) :
    (∀ P ∈ db.products, ∀ b, P.barcode = some b → get_product_by_barcode db b = some P)
    ∧ (∀ q, (∀ P ∈ db.products, P.barcode ≠ some q) → get_product_by_barcode db q = none)
    ∧ (∀ q P, get_product_by_barcode db q = some P → P.barcode = some q) := by
  refine ⟨?_, ?_, ?_⟩
  · intro P hP b hPb
    exact find?_eq_of_barcode_unique db.products h P hP b hPb
  · intro q hq
    rw [get_product_by_barcode, List.find?_eq_none]
    intro p hp
    simp only [beq_iff_eq]
    exact hq p hp
  · intro q P hP
    have := List.find?_some hP
    simpa using this

/-- C2 witness: in the seeded store the barcode 103001 resolves to the
3-0 ナイロン糸 row. -/
theorem C2_get_product_by_barcode_exact_witness :
    get_product_by_barcode sample_db "103001" =
      some ⟨2, "3-0 ナイロン糸", some "エチコン", some "103001", 3, some "2026-01-20", 10⟩ :=
  (C2_get_product_by_barcode_exact sample_db (by decide)).1
    ⟨2, "3-0 ナイロン糸", some "エチコン", some "103001", 3, some "2026-01-20", 10⟩
    (by decide) "103001" rfl

/-- C7: inserting a product whose non-null barcode duplicates a stored
non-null barcode fails with the constraint-violation error and persists
nothing (a successful insert can only happen when no stored product
carries the barcode, and then it appends exactly the one new row); a NULL
barcode never conflicts, so uniqueness applies only among non-null
barcodes. -/
theorem C7_duplicate_barcode_rejected (db : DB) (name : String)
    (man exp : Option String) (stock ms : Int) (b : String) :
    ((∃ p ∈ db.products, p.barcode = some b) →
      insert_product db name man (some b) exp stock ms = .error .constraintViolation)
    ∧ (∀ db', insert_product db name man (some b) exp stock ms = .ok db' →
        (∀ p ∈ db.products, p.barcode ≠ some b) ∧
        db' = { db with
          products := db.products ++
            [⟨db.next_product_id, name, man, some b, stock, exp, ms⟩],
          next_product_id := db.next_product_id + 1 })
    ∧ insert_product db name man none exp stock ms = .ok { db with
        products := db.products ++
          [⟨db.next_product_id, name, man, none, stock, exp, ms⟩],
        next_product_id := db.next_product_id + 1 } := by
  refine ⟨?_, ?_, ?_⟩
  · intro hdup
    have hany : db.products.any (fun p => p.barcode == some b) = true := by
      rw [List.any_eq_true]
      obtain ⟨p, hp, hpb⟩ := hdup
      exact ⟨p, hp, by simp [hpb]⟩
    simp [insert_product, hany]
  · intro db' hok
    by_cases hany : db.products.any (fun p => p.barcode == some b) = true
    · exfalso
      simp [insert_product, hany] at hok
    · simp [insert_product, hany] at hok
      refine ⟨?_, hok.symm⟩
      intro p hp hpb
      exact hany (List.any_eq_true.mpr ⟨p, hp, by simp [hpb]⟩)
  · rfl

/-- C7 witness: re-inserting barcode 103001 into the seeded store is
rejected with the constraint violation. -/
theorem C7_duplicate_barcode_rejected_witness :
    insert_product sample_db "duplicate" none (some "103001") none 1 5 =
      .error .constraintViolation :=
  (C7_duplicate_barcode_rejected sample_db "duplicate" none none 1 5 "103001").1
    (by decide)

/-- C8: init_db is idempotent (a second run on the resulting store is the
identity), it never destroys existing data (a store with any product rows
is returned unchanged, orders untouched), and it seeds exactly when the
products table is empty after table creation. -/
theorem C8_init_db_idempotent (s : Option DB) (e1 e2 e3 e4 : String) :
    init_db (some (init_db s e1 e2 e3 e4)) e1 e2 e3 e4 = init_db s e1 e2 e3 e4
    ∧ (∀ db : DB, db.products ≠ [] → init_db (some db) e1 e2 e3 e4 = db)
    ∧ (∀ db : DB, db.products = [] →
        (init_db (some db) e1 e2 e3 e4).products =
          seed_products db.next_product_id e1 e2 e3 e4
        ∧ (init_db (some db) e1 e2 e3 e4).orders = db.orders) := by
  have hkeep : ∀ db : DB, db.products ≠ [] → init_db (some db) e1 e2 e3 e4 = db := by
    intro db hne
    rw [init_db]
    simp only [Option.getD_some]
    rw [if_neg]
    simp [List.isEmpty_iff, hne]
  have hseed : ∀ db : DB, db.products = [] →
      (init_db (some db) e1 e2 e3 e4).products =
        seed_products db.next_product_id e1 e2 e3 e4
      ∧ (init_db (some db) e1 e2 e3 e4).orders = db.orders := by
    intro db hempty
    rw [init_db]
    simp only [Option.getD_some]
    rw [if_pos (by simp [List.isEmpty_iff, hempty])]
    exact ⟨rfl, rfl⟩
  refine ⟨?_, hkeep, hseed⟩
  apply hkeep
  by_cases h : (s.getD empty_db).products.isEmpty
  · rw [init_db]
    simp only [h, if_true]
    simp [seed_products]
  · rw [init_db]
    simp only [h, if_false]
    rwa [List.isEmpty_iff] at h

/-- C8 witness: re-running init_db on the seeded store returns it
unchanged. -/
theorem C8_init_db_idempotent_witness :
    init_db (some sample_db) "2027-01-01" "2027-01-02" "2027-01-03" "2027-01-04" =
      sample_db :=
  (C8_init_db_idempotent none "2027-01-01" "2027-01-02" "2027-01-03" "2027-01-04").2.1
    sample_db (by decide)

/-- C9: evaluation of the code at the failing input.  No product of the
seeded store has id 999, yet add_to_order_list persists a pending order
row with product_id 999 (the declared FOREIGN KEY is never enforced
because the code does not enable PRAGMA foreign_keys), and the orphan row
is invisible to get_orders. -/
theorem C9_orphan_order_persisted :
    (∀ p ∈ sample_db.products, p.id ≠ 999)
    ∧ (∃ o ∈ (add_to_order_list sample_db 999 1 5).orders,
        o.product_id = 999 ∧ o.status = "pending")
    ∧ get_orders (add_to_order_list sample_db 999 1 5) = [] := by
  decide

/-- C10: add_to_order_list with a product_id matching no stored product
still succeeds for any quantity (the function is total), persists the
orphan row with status pending, leaves the products table alone, and the
orphan never shows up in get_orders: the listing is unchanged because the
inner join drops orders without a matching product row. -/
theorem C10_orphan_order_hidden (db : DB) (pid : Nat) (qty : Int) (t : Nat)
    (h : ∀ p ∈ db.products, p.id ≠ pid) :
    (∃ o ∈ (add_to_order_list db pid qty t).orders,
        o.product_id = pid ∧ o.quantity = qty ∧ o.status = "pending")
    ∧ (add_to_order_list db pid qty t).products = db.products
    ∧ get_orders (add_to_order_list db pid qty t) = get_orders db := by
  refine ⟨⟨⟨db.next_order_id, pid, qty, "pending", t⟩, ?_, rfl, rfl, rfl⟩, rfl, ?_⟩
  · simp [add_to_order_list]
  · have hfind : db.products.find? (fun p => p.id == pid) = none := by
      rw [List.find?_eq_none]
      intro p hp
      simp only [beq_iff_eq]
      exact h p hp
    have hpv : pending_views (add_to_order_list db pid qty t) = pending_views db := by
      rw [pending_views, pending_views]
      simp only [add_to_order_list]
      rw [List.filter_append, List.filterMap_append]
      simp [hfind]
    rw [get_orders, get_orders, hpv]

/-- C10 witness: adding an order for the absent id 999 with quantity -1
to the seeded store persists a pending orphan row, keeps the products,
and leaves the (empty) order listing unchanged. -/
theorem C10_orphan_order_hidden_witness :
    (∃ o ∈ (add_to_order_list sample_db 999 (-1) 7).orders,
        o.product_id = 999 ∧ o.quantity = -1 ∧ o.status = "pending")
    ∧ (add_to_order_list sample_db 999 (-1) 7).products = sample_db.products
    ∧ get_orders (add_to_order_list sample_db 999 (-1) 7) = get_orders sample_db :=
  C10_orphan_order_hidden sample_db 999 (-1) 7 (by decide)

/-- Mapping each element to a related image yields Forall₂ between a list
and its map. -/
theorem forall₂_map_self {α : Type} {R : α → α → Prop} (f : α → α) :
    ∀ {l : List α}, (∀ a ∈ l, R a (f a)) → List.Forall₂ R l (l.map f) := by
  intro l
  induction l with
  | nil => intro _; exact List.Forall₂.nil
  | cons x xs ih =>
    intro h
    exact List.Forall₂.cons (h x (List.mem_cons_self x xs))
      (ih (fun a ha => h a (List.mem_cons_of_mem x ha)))

/-- C3: get_orders lists exactly the pending orders, each enriched with
the joined product's name and manufacturer, as a permutation of the
joined pending rows sorted by created_at descending (newest first); on
the seeded store, inserting order A at time 10 and then order B at time
20 yields [B, A]. -/
theorem C3_get_orders_sorted (db : DB) :
    (get_orders db).Pairwise (fun a b => b.created_at ≤ a.created_at)
    ∧ (get_orders db).Perm (pending_views db)
    ∧ (∀ v, v ∈ get_orders db ↔ ∃ o ∈ db.orders, o.status = "pending" ∧
        ∃ p, db.products.find? (fun q => q.id == o.product_id) = some p ∧ v = order_view o p)
    ∧ get_orders (add_to_order_list (add_to_order_list sample_db 1 2 10) 3 4 20) =
      [⟨2, "4-0 バイクリル", some "エチコン", 4, "pending", 20⟩,
       ⟨1, "No.11 メス刃", some "フェザー", 2, "pending", 10⟩] := by
  refine ⟨pairwise_sort_desc _, perm_sort_desc _, ?_, by decide⟩
  intro v
  rw [get_orders, (perm_sort_desc (pending_views db)).mem_iff, pending_views]
  simp only [List.mem_filterMap, List.mem_filter, Option.map_eq_some', beq_iff_eq]
  constructor
  · rintro ⟨o, ⟨ho, hst⟩, p, hfind, hv⟩
    exact ⟨o, ho, hst, p, hfind, hv.symm⟩
  · rintro ⟨o, ho, hst, p, hfind, hv⟩
    exact ⟨o, ⟨ho, hst⟩, p, hfind, hv.symm⟩

/-- C3 witness: the concrete two-order scenario of the claim, extracted
from the theorem at the seeded store. -/
theorem C3_get_orders_sorted_witness :
    get_orders (add_to_order_list (add_to_order_list sample_db 1 2 10) 3 4 20) =
      [⟨2, "4-0 バイクリル", some "エチコン", 4, "pending", 20⟩,
       ⟨1, "No.11 メス刃", some "フェザー", 2, "pending", 10⟩] :=
  (C3_get_orders_sorted sample_db).2.2.2

/-- C4: clear_orders turns every pending order into an ordered one and
changes nothing else: products are untouched, the orders row count is
unchanged (no deletion), every non-status column of every order row is
preserved and non-pending statuses stay as they were, a subsequent
get_orders returns the empty sequence, and with zero pending rows the
call is a no-op that leaves the store exactly as it was (and raises
nothing, the function being total). -/
theorem C4_clear_orders_frame (db : DB) :
    (clear_orders db).products = db.products
    ∧ (clear_orders db).orders.length = db.orders.length
    ∧ List.Forall₂ (fun o o' : Order =>
        o'.id = o.id ∧ o'.product_id = o.product_id ∧ o'.quantity = o.quantity ∧
        o'.created_at = o.created_at ∧
        o'.status = if o.status = "pending" then "ordered" else o.status)
      db.orders (clear_orders db).orders
    ∧ get_orders (clear_orders db) = []
    ∧ ((∀ o ∈ db.orders, o.status ≠ "pending") → clear_orders db = db) := by
  refine ⟨rfl, by simp [clear_orders], ?_, ?_, ?_⟩
  · apply forall₂_map_self
    intro o _
    by_cases h : o.status = "pending"
    · simp [h]
    · simp [h]
  · have hfil : (clear_orders db).orders.filter (fun o => o.status == "pending") = [] := by
      rw [List.filter_eq_nil_iff]
      intro o ho
      rcases List.mem_map.mp ho with ⟨o', _, rfl⟩
      by_cases h : o'.status = "pending"
      · simp [h]
      · simp [h]
    rw [get_orders, pending_views, hfil]
    rfl
  · intro h
    cases db with
    | mk ps os np no =>
      simp only [clear_orders]
      congr 1
      apply map_self_of_mem
      intro o ho
      rw [if_neg]
      simp only [beq_iff_eq]
      exact h o ho

/-- C4 witness: clearing the seeded store, which has no orders at all,
changes nothing. -/
theorem C4_clear_orders_frame_witness : clear_orders sample_db = sample_db :=
  (C4_clear_orders_frame sample_db).2.2.2.2 (by decide)

/-- C1 (amended): for every query inside the literal-plus-dot regex
fragment (no Python re metacharacter other than the '.' wildcard, so in
particular for every metacharacter-free query), the search resolution
follows the stated precedence, with the name stage being pandas
str.contains regex matching rather than plain substring containment: an
exact barcode hit is returned first even when the query also matches
other names; otherwise the result is the first product, in inventory
(insertion) order, whose name matches the query case-insensitively as a
regular expression; if no name matches either, the result is absent.
Queries holding other metacharacters, and the re.error raised on
syntactically invalid patterns, are outside the scope of this model and
of this statement. -/
theorem C1_search_precedence (db : DB) (q : String)
    (_hq : dot_literal_pattern q = true) :
    (∀ p, get_product_by_barcode db q = some p → search_product db q = some p)
    ∧ (get_product_by_barcode db q = none →
        search_product db q = db.products.find? (fun p => regex_contains_ci p.name q))
    ∧ (get_product_by_barcode db q = none →
        (∀ p ∈ db.products, regex_contains_ci p.name q = false) →
        search_product db q = none) := by
  have hbase : get_product_by_barcode db q = none →
      search_product db q = db.products.find? (fun p => regex_contains_ci p.name q) := by
    intro h
    unfold search_product
    rw [h]
    exact head?_filter_eq_find? _ _
  refine ⟨?_, hbase, ?_⟩
  · intro p hp
    unfold search_product
    rw [hp]
  · intro h hall
    rw [hbase h, List.find?_eq_none]
    intro p hp
    simp [hall p hp]

/-- C1 witness: the query 4902470036647 lies in the modelled fragment,
and in the seeded store it is an exact barcode hit, returned as such. -/
theorem C1_search_precedence_witness :
    search_product sample_db "4902470036647" =
      some ⟨1, "No.11 メス刃", some "フェザー", some "4902470036647", 100,
        some "2026-10-12", 20⟩ :=
  (C1_search_precedence sample_db "4902470036647" (by decide)).1
    ⟨1, "No.11 メス刃", some "フェザー", some "4902470036647", 100,
      some "2026-10-12", 20⟩ (by decide)

/-- C1 counterexample: the claim's substring reading is false on the
code.  The query 3.0 lies inside the literal-plus-dot fragment where the
embedding is faithful; in the seeded store it equals no barcode and is a
case-insensitive substring of no product name, so under the claim the
search result would be absent; the code still returns the 3-0 ナイロン糸
product, because pandas str.contains treats the query as a regular
expression in which the dot matches the hyphen. -/
theorem C1_search_substring_counterexample :
    dot_literal_pattern "3.0" = true
    ∧ (∀ p ∈ sample_db.products, p.barcode ≠ some "3.0")
    ∧ (∀ p ∈ sample_db.products, substr_ci p.name "3.0" = false)
    ∧ search_product sample_db "3.0" =
      some ⟨2, "3-0 ナイロン糸", some "エチコン", some "103001", 3,
        some "2026-01-20", 10⟩ := by
  decide
